import Mathlib

/-!
Verification of the filter-state reconciliation engine of `og_nl_2_filter`.

The definitions below are a shallow embedding of `src/tools/filter_tools.py`
and `src/models/filter_models.py`: JSON-shaped report data is modelled by the
`Json` tree, the pydantic value types by Lean structures, and each Python
function by a Lean function of the same name (snake_case turned camelCase).
Comments cite the source lines each definition mirrors.
-/

namespace OgFilter

/-- JSON-shaped data as stored in the report structure (`account_summary`):
Python dicts, lists, strings, numbers, booleans and `None`. -/
inductive Json where
  | null
  | bool (b : Bool)
  | num (n : Int)
  | str (s : String)
  | arr (elems : List Json)
  | obj (fields : List (String × Json))
deriving Repr

/-- Python `v is None`. -/
def Json.isNull : Json → Bool
  | .null => true
  | _ => false

/-- Dictionary key lookup (`d.get(k)` / `k in d`): first binding wins,
matching unique-key Python dicts. -/
def Json.lookupField (fields : List (String × Json)) (k : String) : Option Json :=
  match fields with
  | [] => none
  | (k', v) :: rest => if k' = k then some v else Json.lookupField rest k

/-- The block-list of `sanitize_response_object` (filter_tools.py line 137):
`UNWANTED_PROPERTIES = {'source_type'}`. -/
def unwantedProperties : List String := ["source_type"]

mutual

/-- `_sanitize_recursive` (filter_tools.py lines 139-161): drop block-listed
keys and null-valued keys from dicts, drop null elements from lists, return
scalars unchanged. -/
def sanitizeJson : Json → Json
  | .obj fields => .obj (sanitizeFields fields)
  | .arr elems => .arr (sanitizeElems elems)
  | v => v

/-- The dict arm of `_sanitize_recursive` (lines 141-150): keep a key only
when it is not block-listed and its sanitized value is not null. -/
def sanitizeFields : List (String × Json) → List (String × Json)
  | [] => []
  | (k, v) :: rest =>
    if k ∈ unwantedProperties then sanitizeFields rest
    else
      let sv := sanitizeJson v
      if sv.isNull then sanitizeFields rest
      else (k, sv) :: sanitizeFields rest

/-- The list arm of `_sanitize_recursive` (lines 151-158): sanitize each
element and drop the ones that came out null. -/
def sanitizeElems : List Json → List Json
  | [] => []
  | v :: rest =>
    let sv := sanitizeJson v
    if sv.isNull then sanitizeElems rest
    else sv :: sanitizeElems rest

end

/-- `sanitize_response_object` itself (lines 122-163) is `_sanitize_recursive`
applied to the whole response value. -/
def sanitizeResponseObject (responseData : Json) : Json :=
  sanitizeJson responseData

mutual

/-- A tree is clean when, at every nesting depth, no dict key is block-listed,
no dict value is null, and no list element is null. -/
def cleanJson : Json → Bool
  | .obj fields => cleanFields fields
  | .arr elems => cleanElems elems
  | _ => true

def cleanFields : List (String × Json) → Bool
  | [] => true
  | (k, v) :: rest =>
    !(unwantedProperties.contains k) && !v.isNull && cleanJson v && cleanFields rest

def cleanElems : List Json → Bool
  | [] => true
  | v :: rest => !v.isNull && cleanJson v && cleanElems rest

end

/-- Sanitizing never turns a non-null value into null: only `.null` maps to
`.null`, since dicts map to dicts and lists to lists. -/
theorem sanitizeJson_isNull (j : Json) : (sanitizeJson j).isNull = j.isNull := by
  cases j <;> simp [sanitizeJson, Json.isNull]

mutual

theorem sanitizeJson_clean : (j : Json) → cleanJson (sanitizeJson j) = true
  | .null => rfl
  | .bool _ => rfl
  | .num _ => rfl
  | .str _ => rfl
  | .obj fields => by
    simpa [sanitizeJson, cleanJson] using sanitizeFields_clean fields
  | .arr elems => by
    simpa [sanitizeJson, cleanJson] using sanitizeElems_clean elems

theorem sanitizeFields_clean : (l : List (String × Json)) → cleanFields (sanitizeFields l) = true
  | [] => rfl
  | (k, v) :: rest => by
    by_cases hk : k ∈ unwantedProperties
    · simpa [sanitizeFields, hk] using sanitizeFields_clean rest
    · by_cases hn : (sanitizeJson v).isNull
      · simpa [sanitizeFields, hk, hn] using sanitizeFields_clean rest
      · have hc := sanitizeJson_clean v
        have hr := sanitizeFields_clean rest
        have hck : unwantedProperties.contains k = false := by simpa using hk
        simp [sanitizeFields, hk, hn, cleanFields, hc, hr, hck]

theorem sanitizeElems_clean : (l : List Json) → cleanElems (sanitizeElems l) = true
  | [] => rfl
  | v :: rest => by
    by_cases hn : (sanitizeJson v).isNull
    · simpa [sanitizeElems, hn] using sanitizeElems_clean rest
    · have hc := sanitizeJson_clean v
      have hr := sanitizeElems_clean rest
      simp [sanitizeElems, hn, cleanElems, hc, hr]

end

mutual

theorem sanitizeJson_idem : (j : Json) → sanitizeJson (sanitizeJson j) = sanitizeJson j
  | .null => rfl
  | .bool _ => rfl
  | .num _ => rfl
  | .str _ => rfl
  | .obj fields => by
    simp [sanitizeJson, sanitizeFields_idem fields]
  | .arr elems => by
    simp [sanitizeJson, sanitizeElems_idem elems]

theorem sanitizeFields_idem :
    (l : List (String × Json)) → sanitizeFields (sanitizeFields l) = sanitizeFields l
  | [] => rfl
  | (k, v) :: rest => by
    by_cases hk : k ∈ unwantedProperties
    · simp [sanitizeFields, hk, sanitizeFields_idem rest]
    · by_cases hn : (sanitizeJson v).isNull
      · simp [sanitizeFields, hk, hn, sanitizeFields_idem rest]
      · have hv := sanitizeJson_idem v
        have hn' : (sanitizeJson (sanitizeJson v)).isNull = false := by
          rw [hv]; exact Bool.eq_false_iff.mpr hn
        simp [sanitizeFields, hk, hn, hv, hn', sanitizeFields_idem rest]

theorem sanitizeElems_idem : (l : List Json) → sanitizeElems (sanitizeElems l) = sanitizeElems l
  | [] => rfl
  | v :: rest => by
    by_cases hn : (sanitizeJson v).isNull
    · simp [sanitizeElems, hn, sanitizeElems_idem rest]
    · have hv := sanitizeJson_idem v
      have hn' : (sanitizeJson (sanitizeJson v)).isNull = false := by
        rw [hv]; exact Bool.eq_false_iff.mpr hn
      simp [sanitizeElems, hn, hv, hn', sanitizeElems_idem rest]

end

end OgFilter

/-- C7: the response sanitizer removes every block-listed map key and every
null-valued map key at any nesting depth, drops null elements from sequences,
and is idempotent: `sanitize (sanitize x) = sanitize x` for every tree `x`. -/
theorem C7_sanitizer_clean_and_idempotent (x : OgFilter.Json) :
    OgFilter.cleanJson (OgFilter.sanitizeResponseObject x) = true ∧
    OgFilter.sanitizeResponseObject (OgFilter.sanitizeResponseObject x) =
      OgFilter.sanitizeResponseObject x :=
  ⟨OgFilter.sanitizeJson_clean x, OgFilter.sanitizeJson_idem x⟩

namespace OgFilter

/-- Does `pat` occur at the very start of `l`? -/
def leadsList (pat l : List Char) : Bool :=
  match pat, l with
  | [], _ => true
  | _ :: _, [] => false
  | a :: as, b :: bs => a == b && leadsList as bs

/-- Does `pat` occur contiguously anywhere in `l`? -/
def occursInList (pat : List Char) : List Char → Bool
  | [] => pat.isEmpty
  | c :: rest => leadsList pat (c :: rest) || occursInList pat rest

/-- Python's `pat in s`: `pat` occurs as a contiguous substring of `s`
(the empty pattern occurs in every string, as in Python). -/
def occursIn (pat s : String) : Bool :=
  occursInList pat.data s.data

/-- The empty pattern occurs in every string, as Python's `"" in s` does. -/
theorem occursIn_empty (s : String) : occursIn "" s = true := by
  show occursInList [] s.data = true
  induction s.data with
  | nil => rfl
  | cons c rest ih => simp [occursInList, leadsList]

/-- Python's `s.lower()` (the source data is ASCII, where `Char.toLower`
agrees with Python). -/
def pyLower (s : String) : String :=
  ⟨s.data.map Char.toLower⟩

/-- Python's `s.replace(' ', '_')`: every space becomes an underscore. -/
def underscoreSpaces (s : String) : String :=
  ⟨s.data.map (fun c => if c = ' ' then '_' else c)⟩

/-- Accumulator pass behind `pyTokens`: `cur` holds the reversed current word. -/
def pyTokensAux (cur : List Char) : List Char → List (List Char)
  | [] => if cur.isEmpty then [] else [cur.reverse]
  | c :: rest =>
    if c.isWhitespace then
      if cur.isEmpty then pyTokensAux [] rest
      else cur.reverse :: pyTokensAux [] rest
    else pyTokensAux (c :: cur) rest

/-- Python's `s.split()`: split on whitespace runs, dropping empty pieces. -/
def pyTokens (s : String) : List String :=
  (pyTokensAux [] s.data).map (fun l => ⟨l⟩)

/-- A column group of the stored `account_summary` dict, as the reconciliation
code reads it: its `id`, its `grouping` list (whose head's `constant` field is
the display name), its `filters` list of filter-group dicts, and the remaining
report-configuration fields, which the core never interprets. -/
structure ColumnGroupState where
  id : String
  grouping : List Json
  filters : List Json
  rest : List (String × Json)
deriving Repr

/-- The whole stored `account_summary`: its `columnGroups` plus the opaque
remaining fields (`columnOrder`, `formatting`, ...). -/
structure AccountState where
  columnGroups : List ColumnGroupState
  rest : List (String × Json)
deriving Repr

/-- `_extract_group_name` (filter_tools.py lines 1082-1089): the first
`grouping` entry's `constant` field, when that entry is a dict carrying one.
The display name is modelled only when the constant is a string (a non-string
constant would crash the resolver's `.lower()` call downstream). -/
def extractGroupName (g : ColumnGroupState) : Option String :=
  match g.grouping with
  | [] => none
  | first :: _ =>
    match first with
    | .obj fields =>
      match Json.lookupField fields "constant" with
      | some (.str s) => some s
      | _ => none
    | _ => none

/-- One `{id, name}` candidate record built by the resolver. -/
structure GroupName where
  id : String
  name : String
deriving Repr, DecidableEq

/-- The `group_names` list of `identify_target_column_group` (lines 929-936):
every group with an extractable display name, skipping falsy (empty) names
(`if group_name:`). -/
def groupNamesOf (cgs : List ColumnGroupState) : List GroupName :=
  cgs.filterMap (fun g =>
    match extractGroupName g with
    | some n => if n = "" then none else some ⟨g.id, n⟩
    | none => none)

/-- The fixed synonym table (lines 958-966). -/
def synonymTable : List (String × List String) :=
  [("actual", ["actuals", "actual data"]),
   ("budget", ["budgets", "budget data"]),
   ("forecast", ["forecasts", "forecast data", "projected"]),
   ("plan", ["planned", "planning"]),
   ("prior", ["previous", "last year"]),
   ("current", ["this year", "cy"]),
   ("py", ["prior year", "previous year"])]

/-- Direct matching (lines 941-945): first group whose full lowercased
display name occurs in the lowercased query. -/
def directMatchFind (queryLower : String) (names : List GroupName) : Option GroupName :=
  names.find? (fun gn => occursIn (pyLower gn.name) queryLower)

/-- Fuzzy matching (lines 947-955): first group one of whose display-name
whitespace tokens of length > 2 occurs in the query. -/
def tokenMatchFind (queryLower : String) (names : List GroupName) : Option GroupName :=
  names.find? (fun gn =>
    (pyTokens (pyLower gn.name)).any (fun w => decide (2 < w.length) && occursIn w queryLower))

/-- Synonym matching (lines 968-974): first group whose display name contains
a synonym key one of whose phrases occurs in the query. -/
def synonymMatchFind (queryLower : String) (names : List GroupName) : Option GroupName :=
  names.find? (fun gn =>
    synonymTable.any (fun kv =>
      occursIn kv.1 (pyLower gn.name) && kv.2.any (fun syn => occursIn syn queryLower)))

/-- Resolver outcome: `identify_target_column_group` returns an id, raises
`ValueError` on zero groups, or raises `ColumnGroupClarificationNeeded`
carrying the candidate list. -/
inductive ResolveResult where
  | resolved (id : String)
  | noGroups
  | clarification (availableGroups : List GroupName)
deriving Repr, DecidableEq

/-- `identify_target_column_group` (filter_tools.py lines 903-978): one group
wins unconditionally; zero groups is an error; otherwise direct, token and
synonym matching are tried in that order, first match winning, and failure of
all three yields the clarification outcome with the candidate list. -/
def identifyTargetColumnGroup (userQuery : String) (cgs : List ColumnGroupState) : ResolveResult :=
  match cgs with
  | [g] => .resolved g.id
  | [] => .noGroups
  | _ =>
    let names := groupNamesOf cgs
    let ql := pyLower userQuery
    match directMatchFind ql names with
    | some gn => .resolved gn.id
    | none =>
      match tokenMatchFind ql names with
      | some gn => .resolved gn.id
      | none =>
        match synonymMatchFind ql names with
        | some gn => .resolved gn.id
        | none => .clarification names

end OgFilter

namespace OgFilter

/-- A candidate in `group_names` comes from a group of the report whose
display name extracts to exactly that candidate's name. -/
theorem mem_groupNamesOf {cgs : List ColumnGroupState} {gn : GroupName}
    (h : gn ∈ groupNamesOf cgs) :
    ∃ g ∈ cgs, extractGroupName g = some gn.name ∧ gn.id = g.id := by
  simp only [groupNamesOf, List.mem_filterMap] at h
  obtain ⟨g, hg, hsome⟩ := h
  refine ⟨g, hg, ?_⟩
  cases hx : extractGroupName g with
  | none => rw [hx] at hsome; cases hsome
  | some n =>
    rw [hx] at hsome
    by_cases hn : n = ""
    · simp [hn] at hsome
    · simp only [hn, if_false] at hsome
      cases hsome
      exact ⟨rfl, rfl⟩

/-- `pyLower` of the empty string is the empty string. -/
theorem pyLower_empty : pyLower "" = "" := rfl

end OgFilter

/-- C5: with at least two column groups and a query in which no group's
display name occurs, no display-name token longer than two characters occurs,
and no synonym phrase occurs, resolution yields the clarification outcome
whose candidate list is exactly the `{id, name}` pairs of every group with an
extractable display name; groups without one are absent from the list. -/
theorem C5_ambiguity_yields_full_candidate_list (q : String)
    (cgs : List OgFilter.ColumnGroupState)
    (hlen : 2 ≤ cgs.length)
    (hname : ∀ g ∈ cgs, (OgFilter.extractGroupName g).all
      (fun n => !OgFilter.occursIn (OgFilter.pyLower n) (OgFilter.pyLower q)) = true)
    (htok : ∀ g ∈ cgs, (OgFilter.extractGroupName g).all
      (fun n => (OgFilter.pyTokens (OgFilter.pyLower n)).all
        (fun w => decide (w.length ≤ 2) || !OgFilter.occursIn w (OgFilter.pyLower q))) = true)
    (hsyn : OgFilter.synonymTable.all
      (fun kv => kv.2.all (fun syn => !OgFilter.occursIn syn (OgFilter.pyLower q))) = true) :
    OgFilter.identifyTargetColumnGroup q cgs =
      .clarification (OgFilter.groupNamesOf cgs) ∧
    OgFilter.groupNamesOf cgs = cgs.filterMap
      (fun g => (OgFilter.extractGroupName g).map (fun n => ⟨g.id, n⟩)) := by
  open OgFilter in
  have hdirect : directMatchFind (pyLower q) (groupNamesOf cgs) = none := by
    rw [directMatchFind, List.find?_eq_none]
    intro gn hgn
    obtain ⟨g, hg, hx, _⟩ := mem_groupNamesOf hgn
    have := hname g hg
    rw [hx] at this
    simpa using this
  have htoken : tokenMatchFind (pyLower q) (groupNamesOf cgs) = none := by
    rw [tokenMatchFind, List.find?_eq_none]
    intro gn hgn
    obtain ⟨g, hg, hx, _⟩ := mem_groupNamesOf hgn
    have hall := htok g hg
    rw [hx] at hall
    simp only [Option.all_some] at hall
    simp only [Bool.not_eq_true, List.any_eq_false]
    intro w hw
    have := (List.all_eq_true.mp hall) w hw
    rcases Bool.or_eq_true_iff.mp this with h2 | hocc
    · have : decide (2 < w.length) = false := by
        simpa using Nat.not_lt.mpr (of_decide_eq_true h2)
      rw [this, Bool.false_and]
    · have : occursIn w (pyLower q) = false := by simpa using hocc
      rw [this, Bool.and_false]
  have hsynm : synonymMatchFind (pyLower q) (groupNamesOf cgs) = none := by
    rw [synonymMatchFind, List.find?_eq_none]
    intro gn _
    simp only [Bool.not_eq_true, List.any_eq_false]
    intro kv hkv
    have := (List.all_eq_true.mp hsyn) kv hkv
    have hinner : kv.2.any (fun syn => occursIn syn (pyLower q)) = false := by
      simp only [List.any_eq_false]
      intro syn hs
      simpa using (List.all_eq_true.mp this) syn hs
    rw [hinner, Bool.and_false]
  constructor
  · match cgs, hlen with
    | g1 :: g2 :: rest, _ =>
      show (match directMatchFind (pyLower q) (groupNamesOf (g1 :: g2 :: rest)) with
        | some gn => ResolveResult.resolved gn.id
        | none => match tokenMatchFind (pyLower q) (groupNamesOf (g1 :: g2 :: rest)) with
          | some gn => ResolveResult.resolved gn.id
          | none => match synonymMatchFind (pyLower q) (groupNamesOf (g1 :: g2 :: rest)) with
            | some gn => ResolveResult.resolved gn.id
            | none => ResolveResult.clarification (groupNamesOf (g1 :: g2 :: rest))) =
        ResolveResult.clarification (groupNamesOf (g1 :: g2 :: rest))
      rw [hdirect, htoken, hsynm]
  · apply List.filterMap_congr
    intro g hg
    cases hx : extractGroupName g with
    | none => rfl
    | some n =>
      by_cases hn : n = ""
      · exfalso
        have := hname g hg
        rw [hx, hn] at this
        simp only [Option.all_some, pyLower_empty] at this
        rw [occursIn_empty] at this
        simp at this
      · simp [hn]

namespace OgFilter

/-- Concrete column group named "Actuals Data" (spec's resolver examples). -/
def actualsGroupW : ColumnGroupState :=
  ⟨"cg1", [.obj [("constant", .str "Actuals Data")]], [], []⟩

/-- Concrete column group named "Budget Data" (spec's resolver examples). -/
def budgetGroupW : ColumnGroupState :=
  ⟨"cg2", [.obj [("constant", .str "Budget Data")]], [], []⟩

end OgFilter

/-- C5 witness: for the spec's own example — groups "Actuals Data" and
"Budget Data", query "filter by fiscal period 10" — the hypotheses hold and
resolution yields the two-candidate clarification. -/
theorem C5_ambiguity_yields_full_candidate_list_witness :
    OgFilter.identifyTargetColumnGroup "filter by fiscal period 10"
      [OgFilter.actualsGroupW, OgFilter.budgetGroupW] =
      .clarification (OgFilter.groupNamesOf [OgFilter.actualsGroupW, OgFilter.budgetGroupW]) ∧
    OgFilter.groupNamesOf [OgFilter.actualsGroupW, OgFilter.budgetGroupW] =
      [OgFilter.actualsGroupW, OgFilter.budgetGroupW].filterMap
        (fun g => (OgFilter.extractGroupName g).map (fun n => ⟨g.id, n⟩)) :=
  C5_ambiguity_yields_full_candidate_list "filter by fiscal period 10"
    [OgFilter.actualsGroupW, OgFilter.budgetGroupW]
    (by decide) (by decide) (by decide) (by decide)

/-- C6: column-group resolution is a deterministic function of the query and
the report, applying its rules in fixed order with first match winning: a
single column group is returned without inspecting the query; with several
groups a full-display-name substring match beats everything, and token
matching beats synonym matching; and for groups "Actuals Data"/"Budget Data"
with query "filter actuals by fiscal period 10" the "Actuals Data" id wins. -/
theorem C6_resolver_deterministic_rule_order :
    (∀ (q : String) (g : OgFilter.ColumnGroupState),
      OgFilter.identifyTargetColumnGroup q [g] = .resolved g.id) ∧
    (∀ (q : String) (cgs : List OgFilter.ColumnGroupState) (gn : OgFilter.GroupName),
      2 ≤ cgs.length →
      OgFilter.directMatchFind (OgFilter.pyLower q) (OgFilter.groupNamesOf cgs) = some gn →
      OgFilter.identifyTargetColumnGroup q cgs = .resolved gn.id) ∧
    (∀ (q : String) (cgs : List OgFilter.ColumnGroupState) (gn : OgFilter.GroupName),
      2 ≤ cgs.length →
      OgFilter.directMatchFind (OgFilter.pyLower q) (OgFilter.groupNamesOf cgs) = none →
      OgFilter.tokenMatchFind (OgFilter.pyLower q) (OgFilter.groupNamesOf cgs) = some gn →
      OgFilter.identifyTargetColumnGroup q cgs = .resolved gn.id) ∧
    OgFilter.identifyTargetColumnGroup "filter actuals by fiscal period 10"
      [OgFilter.actualsGroupW, OgFilter.budgetGroupW] = .resolved "cg1" := by
  open OgFilter in
  refine ⟨fun q g => rfl, ?_, ?_, by decide⟩
  · intro q cgs gn hlen hd
    match cgs, hlen with
    | g1 :: g2 :: rest, _ =>
      show (match directMatchFind (pyLower q) (groupNamesOf (g1 :: g2 :: rest)) with
        | some gn => ResolveResult.resolved gn.id
        | none => match tokenMatchFind (pyLower q) (groupNamesOf (g1 :: g2 :: rest)) with
          | some gn => ResolveResult.resolved gn.id
          | none => match synonymMatchFind (pyLower q) (groupNamesOf (g1 :: g2 :: rest)) with
            | some gn => ResolveResult.resolved gn.id
            | none => ResolveResult.clarification (groupNamesOf (g1 :: g2 :: rest))) =
        ResolveResult.resolved gn.id
      rw [hd]
  · intro q cgs gn hlen hd ht
    match cgs, hlen with
    | g1 :: g2 :: rest, _ =>
      show (match directMatchFind (pyLower q) (groupNamesOf (g1 :: g2 :: rest)) with
        | some gn => ResolveResult.resolved gn.id
        | none => match tokenMatchFind (pyLower q) (groupNamesOf (g1 :: g2 :: rest)) with
          | some gn => ResolveResult.resolved gn.id
          | none => match synonymMatchFind (pyLower q) (groupNamesOf (g1 :: g2 :: rest)) with
            | some gn => ResolveResult.resolved gn.id
            | none => ResolveResult.clarification (groupNamesOf (g1 :: g2 :: rest))) =
        ResolveResult.resolved gn.id
      rw [hd, ht]

/-- C6 witness: the full-name rule applied to the concrete query "show me the
budget data" resolves to the "Budget Data" group, and the token rule applied
to "filter actuals by fiscal period 10" (after the full-name rule fails)
resolves to the "Actuals Data" group. -/
theorem C6_resolver_deterministic_rule_order_witness :
    OgFilter.identifyTargetColumnGroup "show me the budget data"
      [OgFilter.actualsGroupW, OgFilter.budgetGroupW] = .resolved "cg2" ∧
    OgFilter.identifyTargetColumnGroup "filter actuals by fiscal period 10"
      [OgFilter.actualsGroupW, OgFilter.budgetGroupW] = .resolved "cg1" :=
  ⟨C6_resolver_deterministic_rule_order.2.1 "show me the budget data"
      [OgFilter.actualsGroupW, OgFilter.budgetGroupW] ⟨"cg2", "Budget Data"⟩
      (by decide) (by decide),
   C6_resolver_deterministic_rule_order.2.2.1 "filter actuals by fiscal period 10"
      [OgFilter.actualsGroupW, OgFilter.budgetGroupW] ⟨"cg1", "Actuals Data"⟩
      (by decide) (by decide) (by decide)⟩

namespace OgFilter

/-- `FilterOperator` (filter_models.py lines 8-15). -/
inductive FilterOperator where
  | equal
  | notEqual
  | contains
  | doesNotContain
  | isBlank
  | isNotBlank
deriving Repr, DecidableEq

/-- `FilterOperator(value)`: enum construction by value, `none` when Python
would raise `ValueError`. -/
def FilterOperator.ofValue : String → Option FilterOperator
  | "equal" => some .equal
  | "notEqual" => some .notEqual
  | "contains" => some .contains
  | "doesNotContain" => some .doesNotContain
  | "isBlank" => some .isBlank
  | "isNotBlank" => some .isNotBlank
  | _ => none

/-- The enum member's string value (the member is a `str` subclass). -/
def FilterOperator.value : FilterOperator → String
  | .equal => "equal"
  | .notEqual => "notEqual"
  | .contains => "contains"
  | .doesNotContain => "doesNotContain"
  | .isBlank => "isBlank"
  | .isNotBlank => "isNotBlank"

/-- `FilterType` (filter_models.py lines 18-21). -/
inductive FilterType where
  | lens
  | dimensions
deriving Repr, DecidableEq

/-- `FilterType(value)`: `none` when Python would raise `ValueError`. -/
def FilterType.ofValue : String → Option FilterType
  | "lens" => some .lens
  | "dimensions" => some .dimensions
  | _ => none

/-- The enum member's string value. -/
def FilterType.value : FilterType → String
  | .lens => "lens"
  | .dimensions => "dimensions"

/-- `LogicalOperator` (filter_models.py lines 24-27). -/
inductive LogicalOperator where
  | and
  | or
deriving Repr, DecidableEq

/-- `LogicalOperator(value)`: `none` when Python would raise `ValueError`. -/
def LogicalOperator.ofValue : String → Option LogicalOperator
  | "and" => some .and
  | "or" => some .or
  | _ => none

/-- The enum member's string value. -/
def LogicalOperator.value : LogicalOperator → String
  | .and => "and"
  | .or => "or"

/-- `DimensionInfo` (filter_models.py lines 45-47). -/
structure DimensionInfo where
  id : String
deriving Repr, DecidableEq

/-- `FilterCondition` (filter_models.py lines 50-56): one atomic test. -/
structure FilterCondition where
  columnName : String
  value : String
  operator : FilterOperator
  dimension : Option DimensionInfo
  joinColumnName : Option String
deriving Repr, DecidableEq

/-- `FilterGroup` (filter_models.py lines 68-72): conditions joined by one
logical operator, classified by an internal `source_type`. -/
structure FilterGroup where
  operator : LogicalOperator
  value : List FilterCondition
  source_type : FilterType
deriving Repr, DecidableEq

/-- `AvailableFilter` (filter_models.py lines 36-42): the filter metadata
records handed to the engine (`joinColumnName` is optional and defaults to
`None`). -/
structure AvailableFilter where
  name : String
  label : String
  sourceType : String
  sourceId : String
  joinColumnName : Option String
deriving Repr, DecidableEq

/-- `create_filter_condition` (filter_tools.py lines 228-254): look the
filter up in the available-filter metadata by `name`; build the base
condition — `FilterOperator(operator)` raises `ValueError` on an
unrecognized operator, modelled as `Except.error` — and attach `dimension`
(wrapping the metadata's `sourceId`) plus the metadata's `joinColumnName`
exactly when the metadata's `sourceType` is `dimensions`. -/
def createFilterCondition (filterName filterValue operator filterType : String)
    (availableFilters : List AvailableFilter) : Except String FilterCondition :=
  let filterMetadata := availableFilters.find? (fun af => af.name == filterName)
  match FilterOperator.ofValue operator with
  | none => .error ("invalid FilterOperator: " ++ operator)
  | some op =>
    match filterMetadata with
    | some af =>
      if af.sourceType == "dimensions" then
        .ok ⟨filterName, filterValue, op, some ⟨af.sourceId⟩, af.joinColumnName⟩
      else
        .ok ⟨filterName, filterValue, op, none, none⟩
    | none => .ok ⟨filterName, filterValue, op, none, none⟩

/-- The condition-to-filter-type matching predicate shared by add, modify and
remove (e.g. filter_tools.py lines 373-377): the condition's column name,
lowercased and space-to-underscore normalized, equals the lowercased filter
name, or its plain lowercase equals the lowercased label. -/
def matchesFilterName (filterName filterLabel : String) (c : FilterCondition) : Bool :=
  underscoreSpaces (pyLower c.columnName) == pyLower filterName ||
  pyLower c.columnName == pyLower filterLabel

/-- The parameter-swap fix (filter_tools.py lines 322-328): when the supplied
`filter_name` looks like a label (contains a space or starts uppercase), map
it back to the metadata record's `name` when a label matches. -/
def resolveActualFilterName (filterName : String)
    (availableFilters : List AvailableFilter) : String :=
  let looksLikeLabel :=
    filterName.data.any (fun c => c == ' ') ||
    (match filterName.data with
     | [] => false
     | c :: _ => c.isUpper)
  if looksLikeLabel then
    match availableFilters.find? (fun af => af.label == filterName) with
    | some af => af.name
    | none => filterName
  else filterName

/-- The group-matching test of `add_filter` (lines 371-379): the group holds
a condition of the same filter type and its `source_type` string equals the
requested one. -/
def groupMatchesAdd (filterName filterLabel filterType : String) (g : FilterGroup) : Bool :=
  g.value.any (matchesFilterName filterName filterLabel) &&
  g.source_type.value == filterType

/-- The reconciliation loop of `add_filter` (filter_tools.py lines 367-402):
append the newly created condition to every group that already holds the
same filter type under the same source classification, keeping all other
groups untouched; when no group matches, append a fresh single-condition
`and` group (`FilterType(filter_type)` raising on an unknown type). -/
def addFilterCore (filterName filterLabel filterValue filterType operator : String)
    (availableFilters : List AvailableFilter) (existingFilters : List FilterGroup) :
    Except String (List FilterGroup) :=
  let actualFilterName := resolveActualFilterName filterName availableFilters
  if existingFilters.any (groupMatchesAdd filterName filterLabel filterType) then
    match createFilterCondition actualFilterName filterValue operator filterType availableFilters with
    | .error e => .error e
    | .ok newCondition =>
      .ok (existingFilters.map (fun g =>
        if groupMatchesAdd filterName filterLabel filterType g then
          ⟨g.operator, g.value ++ [newCondition], g.source_type⟩
        else g))
  else
    match createFilterCondition actualFilterName filterValue operator filterType availableFilters with
    | .error e => .error e
    | .ok newCondition =>
      match FilterType.ofValue filterType with
      | none => .error ("invalid FilterType: " ++ filterType)
      | some ft => .ok (existingFilters ++ [⟨.and, [newCondition], ft⟩])

/-- The group test of `modify_filter` (lines 482-488): the group holds a
condition of the target filter type (source classification not consulted). -/
def groupHoldsTarget (filterName filterLabel : String) (g : FilterGroup) : Bool :=
  g.value.any (matchesFilterName filterName filterLabel)

/-- The reconciliation loop of `modify_filter` (filter_tools.py lines
479-521): in every group holding the target filter type, replace each
matching condition in place with the newly created one, keeping sibling
conditions and the group operator; when no group holds it, behave as add. -/
def modifyFilterCore (filterName filterLabel filterValue filterType operator : String)
    (availableFilters : List AvailableFilter) (existingFilters : List FilterGroup) :
    Except String (List FilterGroup) :=
  let actualFilterName := resolveActualFilterName filterName availableFilters
  match createFilterCondition actualFilterName filterValue operator filterType availableFilters with
  | .error e => .error e
  | .ok newCondition =>
    if existingFilters.any (groupHoldsTarget filterName filterLabel) then
      .ok (existingFilters.map (fun g =>
        if groupHoldsTarget filterName filterLabel g then
          ⟨g.operator,
           g.value.map (fun c => if matchesFilterName filterName filterLabel c then newCondition else c),
           g.source_type⟩
        else g))
    else
      match FilterType.ofValue filterType with
      | none => .error ("invalid FilterType: " ++ filterType)
      | some ft => .ok (existingFilters ++ [⟨.and, [newCondition], ft⟩])

/-- The reconciliation loop of `remove_filter` (filter_tools.py lines
708-724): drop every condition matching the filter type from every group and
drop any group left without conditions. -/
def removeFilterCore (filterName filterLabel : String)
    (existingFilters : List FilterGroup) : List FilterGroup :=
  existingFilters.filterMap (fun g =>
    let remainingConditions := g.value.filter (fun c => !matchesFilterName filterName filterLabel c)
    if remainingConditions.isEmpty then none
    else some ⟨g.operator, remainingConditions, g.source_type⟩)

/-- The "remove all" keyword sniff of `remove_filter` (filter_tools.py line
659): any of the five keywords occurring in the lowercased message reroutes
the call to `remove_all_filters`. -/
def bulkRemovalKeywords : List String :=
  ["all filters", "remove all", "clear all", "delete all", "everything"]

/-- Whether the human-readable message signals bulk removal. -/
def isBulkRemovalMessage (message : String) : Bool :=
  bulkRemovalKeywords.any (fun kw => occursIn kw (pyLower message))

/-- The per-type normalization of `remove_multiple_filters` (line 793):
lowercase, then spaces to underscores. -/
def normalizeTypeName (filterType : String) : String :=
  underscoreSpaces (pyLower filterType)

/-- The two name variants a condition is matched under (lines 800-803). -/
def conditionNameVariants (c : FilterCondition) : List String :=
  [underscoreSpaces (pyLower c.columnName), pyLower c.columnName]

/-- One condition matches one normalized requested type when the type is a
substring of a variant or a variant is a substring of the type (line 807). -/
def condMatchesType (typeNorm : String) (c : FilterCondition) : Bool :=
  (conditionNameVariants c).any (fun v => occursIn typeNorm v || occursIn v typeNorm)

/-- `should_remove_group` of `remove_multiple_filters` (lines 795-812): some
condition of the group matches some requested filter type. -/
def groupMatchesAnyType (filterTypes : List String) (g : FilterGroup) : Bool :=
  let filterTypesLower := filterTypes.map normalizeTypeName
  g.value.any (fun c => filterTypesLower.any (fun ft => condMatchesType ft c))

/-- The reconciliation loop of `remove_multiple_filters` (filter_tools.py
lines 790-816): keep exactly the groups in which no condition matches any
requested filter type; matching groups are dropped wholesale. -/
def removeMultipleFiltersCore (filterTypes : List String)
    (existingFilters : List FilterGroup) : List FilterGroup :=
  existingFilters.filter (fun g => !groupMatchesAnyType filterTypes g)

/-- The reconciliation loop of `add_or_filter` (filter_tools.py lines
598-638): build one condition per supplied value; replace every group of
matching filter type and source classification by an `or` group holding
exactly those conditions, or append a fresh `or` group when none matches. -/
def addOrFilterCore (filterName filterLabel : String) (filterValues : List String)
    (filterType operator : String) (availableFilters : List AvailableFilter)
    (existingFilters : List FilterGroup) : Except String (List FilterGroup) :=
  let actualFilterName := resolveActualFilterName filterName availableFilters
  match filterValues.mapM
      (fun v => createFilterCondition actualFilterName v operator filterType availableFilters) with
  | .error e => .error e
  | .ok newConditions =>
    match FilterType.ofValue filterType with
    | none => .error ("invalid FilterType: " ++ filterType)
    | some ft =>
      if existingFilters.any (groupMatchesAdd filterName filterLabel filterType) then
        .ok (existingFilters.map (fun g =>
          if groupMatchesAdd filterName filterLabel filterType g then
            ⟨.or, newConditions, ft⟩
          else g))
      else .ok (existingFilters ++ [⟨.or, newConditions, ft⟩])

end OgFilter

namespace OgFilter

/-- A recognized operator string makes `create_filter_condition` succeed
whatever the metadata: only `FilterOperator(operator)` can raise there. -/
theorem createFilterCondition_ok (filterName filterValue operator filterType : String)
    (availableFilters : List AvailableFilter)
    (hop : (FilterOperator.ofValue operator).isSome = true) :
    ∃ c, createFilterCondition filterName filterValue operator filterType availableFilters =
      .ok c := by
  obtain ⟨op, hopEq⟩ := Option.isSome_iff_exists.mp hop
  unfold createFilterCondition
  rw [hopEq]
  cases availableFilters.find? (fun af => af.name == filterName) with
  | none => exact ⟨_, rfl⟩
  | some af =>
    by_cases hd : af.sourceType == "dimensions"
    · simp only [hd]
      exact ⟨_, rfl⟩
    · simp only [Bool.not_eq_true] at hd
      simp only [hd]
      exact ⟨_, rfl⟩

end OgFilter

/-- C1: adding a filter type already present in the targeted column group
under the same source classification leaves the total FilterGroup count
unchanged, grows the (unique) matching group's condition count by exactly
one, and leaves every sibling group structurally equal to its old value. -/
theorem C1_add_existing_type_appends_in_place
    (fn fl fv ft opstr : String) (afs : List OgFilter.AvailableFilter)
    (gs : List OgFilter.FilterGroup) (i : Nat) (hi : i < gs.length)
    (hmatch : OgFilter.groupMatchesAdd fn fl ft (gs.get ⟨i, hi⟩) = true)
    (huniq : ∀ (j : Nat) (hj : j < gs.length), j ≠ i →
      OgFilter.groupMatchesAdd fn fl ft (gs.get ⟨j, hj⟩) = false)
    (hop : (OgFilter.FilterOperator.ofValue opstr).isSome = true) :
    ∃ gs', OgFilter.addFilterCore fn fl fv ft opstr afs gs = .ok gs' ∧
      gs'.length = gs.length ∧
      (∀ g g', gs.get? i = some g → gs'.get? i = some g' →
        g'.value.length = g.value.length + 1) ∧
      (∀ j, j ≠ i → gs'.get? j = gs.get? j) := by
  open OgFilter in
  have hany : gs.any (groupMatchesAdd fn fl ft) = true :=
    List.any_eq_true.mpr ⟨gs.get ⟨i, hi⟩, List.get_mem gs i hi, hmatch⟩
  obtain ⟨c, hc⟩ := createFilterCondition_ok (resolveActualFilterName fn afs) fv opstr ft afs hop
  refine ⟨gs.map (fun g => if groupMatchesAdd fn fl ft g then
    ⟨g.operator, g.value ++ [c], g.source_type⟩ else g), ?_, ?_, ?_, ?_⟩
  · simp [addFilterCore, hany, hc]
  · simp
  · intro g g' hg hg'
    have h1 := List.get?_eq_get hi
    rw [hg] at h1
    have hgi : g = gs.get ⟨i, hi⟩ := Option.some_injective _ h1
    rw [List.get?_map, hg] at hg'
    simp only [Option.map_some', Option.some.injEq] at hg'
    rw [hgi, hmatch] at hg'
    simp only [eq_self_iff_true, if_true] at hg'
    rw [← hg', hgi]
    simp
  · intro j hj
    rw [List.get?_map]
    by_cases hjlen : j < gs.length
    · have := huniq j hjlen hj
      rw [List.get?_eq_get hjlen, Option.map_some', this]
      simp
    · rw [List.get?_eq_none.mpr (Nat.le_of_not_lt hjlen)]
      rfl

/-- C1 witness: adding a second `account_type` lens condition to a list
holding one matching lens group and one non-matching dimensions group keeps
both groups, appends to the first and leaves the second untouched. -/
theorem C1_add_existing_type_appends_in_place_witness :
    ∃ gs', OgFilter.addFilterCore "account_type" "Account Type" "Revenue" "lens" "equal" []
        [⟨.and, [⟨"account_type", "Accounts Payable", .equal, none, none⟩], .lens⟩,
         ⟨.and, [⟨"fiscal_period", "10", .equal, none, none⟩], .dimensions⟩] = .ok gs' ∧
      gs'.length = 2 ∧
      (∀ g g', [(⟨.and, [⟨"account_type", "Accounts Payable", .equal, none, none⟩], .lens⟩ : OgFilter.FilterGroup),
         ⟨.and, [⟨"fiscal_period", "10", .equal, none, none⟩], .dimensions⟩].get? 0 = some g →
        gs'.get? 0 = some g' → g'.value.length = g.value.length + 1) ∧
      (∀ j, j ≠ 0 → gs'.get? j =
        [(⟨.and, [⟨"account_type", "Accounts Payable", .equal, none, none⟩], .lens⟩ : OgFilter.FilterGroup),
         ⟨.and, [⟨"fiscal_period", "10", .equal, none, none⟩], .dimensions⟩].get? j) :=
  C1_add_existing_type_appends_in_place "account_type" "Account Type" "Revenue" "lens" "equal" []
    [⟨.and, [⟨"account_type", "Accounts Payable", .equal, none, none⟩], .lens⟩,
     ⟨.and, [⟨"fiscal_period", "10", .equal, none, none⟩], .dimensions⟩]
    0 (by decide) (by decide) (by decide) (by decide)

/-- C3: remove-many drops a FilterGroup in its entirety exactly when at least
one of its conditions matches at least one requested filter type, matching by
substring containment in either direction after lowercasing and underscore
normalization; non-matching groups pass through unchanged; and a group
holding both an `account_type` and a `fiscal_period` condition is wholly
dropped when only "account type" is requested. -/
theorem C3_remove_many_whole_group_on_any_match
    (filterTypes : List String) (gs : List OgFilter.FilterGroup) :
    OgFilter.removeMultipleFiltersCore filterTypes gs =
      gs.filter (fun g => !OgFilter.groupMatchesAnyType filterTypes g) ∧
    (∀ g, OgFilter.groupMatchesAnyType filterTypes g = true ↔
      ∃ c ∈ g.value, ∃ t ∈ filterTypes,
        OgFilter.condMatchesType (OgFilter.normalizeTypeName t) c = true) ∧
    (∀ g ∈ gs, OgFilter.groupMatchesAnyType filterTypes g = false →
      g ∈ OgFilter.removeMultipleFiltersCore filterTypes gs) ∧
    OgFilter.removeMultipleFiltersCore ["account type"]
      [⟨.and, [⟨"account_type", "Accounts Payable", .equal, none, none⟩,
               ⟨"fiscal_period", "10", .equal, none, none⟩], .lens⟩] = [] := by
  refine ⟨rfl, ?_, ?_, by decide⟩
  · intro g
    simp only [OgFilter.groupMatchesAnyType, List.any_eq_true, List.mem_map]
    constructor
    · rintro ⟨c, hc, ft, ⟨t, ht, rfl⟩, hm⟩
      exact ⟨c, hc, t, ht, hm⟩
    · rintro ⟨c, hc, t, ht, hm⟩
      exact ⟨c, hc, OgFilter.normalizeTypeName t, ⟨t, ht, rfl⟩, hm⟩
  · intro g hg hmatch
    simp only [OgFilter.removeMultipleFiltersCore, List.mem_filter]
    exact ⟨hg, by rw [hmatch]; rfl⟩

/-- C3 witness: a group whose only condition is a `department` filter
survives a remove-many request for "fund type" unchanged. -/
theorem C3_remove_many_whole_group_on_any_match_witness :
    (⟨.and, [⟨"department", "Fire", .equal, none, none⟩], .lens⟩ : OgFilter.FilterGroup) ∈
      OgFilter.removeMultipleFiltersCore ["fund type"]
        [⟨.and, [⟨"department", "Fire", .equal, none, none⟩], .lens⟩] :=
  (C3_remove_many_whole_group_on_any_match ["fund type"]
      [⟨.and, [⟨"department", "Fire", .equal, none, none⟩], .lens⟩]).2.2.1
    ⟨.and, [⟨"department", "Fire", .equal, none, none⟩], .lens⟩
    (by decide) (by decide)

namespace OgFilter

/-- Python `str(v)` as used on incoming condition values (filter_tools.py
line 90). A list or dict is rendered by its `repr`; no claim depends on that
rendering, so it is abbreviated to a placeholder here. -/
def pyStr : Json → String
  | .null => "None"
  | .bool true => "True"
  | .bool false => "False"
  | .num n => toString n
  | .str s => s
  | .arr _ => "[composite]"
  | .obj _ => "[composite]"

/-- pydantic v1 coercion of a field declared `str`: strings pass, numbers
and booleans are stringified, anything else is a validation error. -/
def pyStrCoerce : Json → Option String
  | .str s => some s
  | .num n => some (toString n)
  | .bool b => some (pyStr (.bool b))
  | _ => none

/-- The operator handling of `normalize_filter_condition` (filter_tools.py
lines 92-99) combined with the model default: an absent operator takes the
pydantic default `equal`; a value for which `FilterOperator(...)` raises
`ValueError` (unknown string, number, boolean, `None`) is defaulted to
`equal` with a warning; an unhashable value (dict/list) raises `TypeError`
out of the `except ValueError` handler, skipping the whole condition. -/
def parseOperatorField (fields : List (String × Json)) : Option FilterOperator :=
  match Json.lookupField fields "operator" with
  | none => some .equal
  | some (.str s) =>
    match FilterOperator.ofValue s with
    | some op => some op
    | none => some .equal
  | some (.num _) => some .equal
  | some (.bool _) => some .equal
  | some .null => some .equal
  | some (.obj _) => none
  | some (.arr _) => none

/-- `urllib.parse.unquote` as exercised by the code path (filter_tools.py
lines 79-82), modelled for the `%2F` escape that triggers it. -/
def decodePercent2F : List Char → List Char
  | '%' :: '2' :: 'F' :: rest => '/' :: decodePercent2F rest
  | c :: rest => c :: decodePercent2F rest
  | [] => []

/-- Dimension ids are URL-decoded only when they contain `%2F` (line 80). -/
def unquoteDimensionId (s : String) : String :=
  if occursIn "%2F" s then ⟨decodePercent2F s.data⟩ else s

/-- Outcome of the dimension handling during condition ingestion. -/
inductive DimensionParse where
  | keep (d : Option DimensionInfo)
  | invalid

/-- The dimension handling of `normalize_filter_condition` (lines 74-86)
followed by pydantic validation: an absent or `None` dimension stays absent;
a dict with a string `id` becomes `DimensionInfo` (URL-decoded); a dict with
a non-string `id` raises inside the `try` (the `in` test on a non-string)
and is popped, leaving the condition dimensionless; a dict without `id`, or
any other non-null value, is passed through and rejected by pydantic,
skipping the condition. -/
def normalizeDimension (fields : List (String × Json)) : DimensionParse :=
  match Json.lookupField fields "dimension" with
  | none => .keep none
  | some .null => .keep none
  | some (.obj dfields) =>
    match Json.lookupField dfields "id" with
    | some (.str s) => .keep (some ⟨unquoteDimensionId s⟩)
    | some _ => .keep none
    | none => .invalid
  | some _ => .invalid

/-- pydantic validation of the optional `joinColumnName` field: absent or
`None` stays absent, strings pass, numbers and booleans are coerced, a dict
or list is a validation error skipping the condition. -/
def parseJoinColumnName (fields : List (String × Json)) : Option (Option String) :=
  match Json.lookupField fields "joinColumnName" with
  | none => some none
  | some .null => some none
  | some (.str s) => some (some s)
  | some (.num n) => some (some (toString n))
  | some (.bool b) => some (some (pyStr (.bool b)))
  | some _ => none

/-- The columnName default of `normalize_filter_condition` (lines 69-71):
a present `columnName` wins, else `column_name`, else `"unknown_column"`. -/
def columnNameField (fields : List (String × Json)) : Json :=
  match Json.lookupField fields "columnName" with
  | some v => v
  | none =>
    match Json.lookupField fields "column_name" with
    | some v => v
    | none => .str "unknown_column"

/-- Ingestion of one condition dict: `normalize_filter_condition`
(filter_tools.py lines 59-101) followed by `FilterCondition(**normalized)`;
`none` is the skipped-condition path of the surrounding `try` (e.g. lines
348-353). A non-dict entry fails `dict(condition_data)` and is skipped. -/
def parseCondition (conditionData : Json) : Option FilterCondition :=
  match conditionData with
  | .obj fields =>
    match pyStrCoerce (columnNameField fields) with
    | none => none
    | some cn =>
      match Json.lookupField fields "value" with
      | none => none
      | some vj =>
        match parseOperatorField fields with
        | none => none
        | some op =>
          match normalizeDimension fields with
          | .invalid => none
          | .keep dim =>
            match parseJoinColumnName fields with
            | none => none
            | some jcn => some ⟨cn, pyStr vj, op, dim, jcn⟩
  | _ => none

/-- Ingestion of one stored filter-group dict (the block repeated at
filter_tools.py lines 345-365): parse and keep the valid conditions, drop
the group when none survive, and otherwise build a `FilterGroup` whose
operator comes from `normalize_filter_group` (lines 104-119, defaulting to
`and`; an unparseable operator fails group construction, skipping the
group). `normalize_filter_group` pops `source_type` before the
`FilterType(normalized.get("source_type", "lens"))` call at line 361, so the
classification is always `lens`. A stored `"value"` that is not a list is
outside the model (Python raises out of the operation there). -/
def parseFilterGroup (filterData : Json) : Option FilterGroup :=
  match filterData with
  | .obj fields =>
    let conditionJsons :=
      match Json.lookupField fields "value" with
      | some (.arr elems) => elems
      | _ => []
    let conditions := conditionJsons.filterMap parseCondition
    if conditions.isEmpty then none
    else
      match (Json.lookupField fields "operator").getD (.str "and") with
      | .str s =>
        match LogicalOperator.ofValue s with
        | some lop => some ⟨lop, conditions, .lens⟩
        | none => none
      | _ => none
  | _ => none

/-- The `existing_filters` list each operation rebuilds from the stored
filter dicts of the targeted column group. -/
def ingestFilters (filtersData : List Json) : List FilterGroup :=
  filtersData.filterMap parseFilterGroup

/-- `FilterCondition.dict` (filter_models.py lines 58-65): the plain field
dump, with `dimension` and `joinColumnName` both removed when `dimension` is
absent (a `None` `joinColumnName` alongside a present dimension is dumped as
null and left to the sanitizer). -/
def conditionToJson (c : FilterCondition) : Json :=
  match c.dimension with
  | none =>
    .obj [("columnName", .str c.columnName), ("value", .str c.value),
          ("operator", .str c.operator.value)]
  | some d =>
    .obj [("columnName", .str c.columnName), ("value", .str c.value),
          ("operator", .str c.operator.value),
          ("dimension", .obj [("id", .str d.id)]),
          ("joinColumnName", match c.joinColumnName with
            | none => .null
            | some s => .str s)]

/-- `FilterGroup.dict` (filter_models.py lines 74-78): operator and dumped
conditions, with `source_type` popped. -/
def filterGroupToJson (g : FilterGroup) : Json :=
  .obj [("operator", .str g.operator.value),
        ("value", .arr (g.value.map conditionToJson))]

/-- The write-back step shared by the mutating operations (e.g.
filter_tools.py line 408): each updated group is dumped to a dict and
sanitized. -/
def writebackFilters (updatedFilters : List FilterGroup) : List Json :=
  updatedFilters.map (fun g => sanitizeResponseObject (filterGroupToJson g))

/-- The read of the targeted column group's stored filters (the
`for group in column_groups: if group.get("id") == ...` scan, e.g. lines
342-344); no matching group leaves `existing_filters` empty. -/
def storedFiltersOf (columnGroupId : String) (st : AccountState) : List Json :=
  match st.columnGroups.find? (fun g => g.id == columnGroupId) with
  | some g => g.filters
  | none => []

/-- The loop of `update_column_group_filters` (filter_tools.py lines
206-211): replace the filters of the first group with the matching id and
stop. -/
def updateFirstColumnGroup (columnGroupId : String) (updatedFilters : List Json) :
    List ColumnGroupState → List ColumnGroupState
  | [] => []
  | g :: rest =>
    if g.id == columnGroupId then { g with filters := updatedFilters } :: rest
    else g :: updateFirstColumnGroup columnGroupId updatedFilters rest

/-- `update_column_group_filters` (filter_tools.py lines 201-211). -/
def updateColumnGroupFilters (columnGroupId : String) (updatedFilters : List Json)
    (st : AccountState) : AccountState :=
  { st with columnGroups := updateFirstColumnGroup columnGroupId updatedFilters st.columnGroups }

/-- The state shape shared by the mutating tools once the target column
group is resolved: ingest the stored filters, run the reconciliation loop,
write the sanitized result back. -/
def applyCore (columnGroupId : String) (core : List FilterGroup → List FilterGroup)
    (st : AccountState) : AccountState :=
  updateColumnGroupFilters columnGroupId
    (writebackFilters (core (ingestFilters (storedFiltersOf columnGroupId st)))) st

/-- `applyCore` for the loops that can raise (`add`, `modify`, `add-or`):
an error aborts before any write-back. -/
def applyCoreE (columnGroupId : String)
    (core : List FilterGroup → Except String (List FilterGroup))
    (st : AccountState) : Except String AccountState :=
  match core (ingestFilters (storedFiltersOf columnGroupId st)) with
  | .error e => .error e
  | .ok updatedFilters =>
    .ok (updateColumnGroupFilters columnGroupId (writebackFilters updatedFilters) st)

/-- `add_filter` (filter_tools.py lines 306-415) on a resolved target. -/
def addFilterOp (filterName filterLabel filterValue filterType operator : String)
    (availableFilters : List AvailableFilter) (columnGroupId : String)
    (st : AccountState) : Except String AccountState :=
  applyCoreE columnGroupId
    (addFilterCore filterName filterLabel filterValue filterType operator availableFilters) st

/-- `modify_filter` (filter_tools.py lines 418-534) on a resolved target. -/
def modifyFilterOp (filterName filterLabel filterValue filterType operator : String)
    (availableFilters : List AvailableFilter) (columnGroupId : String)
    (st : AccountState) : Except String AccountState :=
  applyCoreE columnGroupId
    (modifyFilterCore filterName filterLabel filterValue filterType operator availableFilters) st

/-- `add_or_filter` (filter_tools.py lines 537-651) on a resolved target. -/
def addOrFilterOp (filterName filterLabel : String) (filterValues : List String)
    (filterType operator : String) (availableFilters : List AvailableFilter)
    (columnGroupId : String) (st : AccountState) : Except String AccountState :=
  applyCoreE columnGroupId
    (addOrFilterCore filterName filterLabel filterValues filterType operator availableFilters) st

/-- `remove_all_filters` (filter_tools.py lines 832-864) on a resolved
target: the targeted column group's filters become the empty list. -/
def removeAllFiltersOp (columnGroupId : String) (st : AccountState) : AccountState :=
  updateColumnGroupFilters columnGroupId [] st

/-- `remove_filter` (filter_tools.py lines 654-737) on a resolved target:
a message signalling bulk removal reroutes to `remove_all_filters` (line
659-660); otherwise the per-type removal loop runs. -/
def removeFilterOp (filterName filterLabel message : String) (columnGroupId : String)
    (st : AccountState) : AccountState :=
  if isBulkRemovalMessage message then removeAllFiltersOp columnGroupId st
  else applyCore columnGroupId (removeFilterCore filterName filterLabel) st

/-- `remove_multiple_filters` (filter_tools.py lines 740-829) on a resolved
target. -/
def removeMultipleFiltersOp (filterTypes : List String) (columnGroupId : String)
    (st : AccountState) : AccountState :=
  applyCore columnGroupId (removeMultipleFiltersCore filterTypes) st

end OgFilter

namespace OgFilter

/-- Frame shape of an update through `update_column_group_filters`: the
report's other fields are unchanged, the column-group list keeps its length
and order, every group keeps its id, grouping and opaque fields, and every
group whose id is not the targeted one is unchanged outright. -/
def FiltersOnlyUpdate (columnGroupId : String) (st st' : AccountState) : Prop :=
  st'.rest = st.rest ∧
  List.Forall₂ (fun g g' =>
    g'.id = g.id ∧ g'.grouping = g.grouping ∧ g'.rest = g.rest ∧
    (g.id ≠ columnGroupId → g' = g)) st.columnGroups st'.columnGroups

/-- The loop of `update_column_group_filters` only rewrites the filters of
the first group carrying the targeted id. -/
theorem updateFirstColumnGroup_frame (columnGroupId : String) (updatedFilters : List Json) :
    ∀ gs : List ColumnGroupState,
      List.Forall₂ (fun g g' =>
        g'.id = g.id ∧ g'.grouping = g.grouping ∧ g'.rest = g.rest ∧
        (g.id ≠ columnGroupId → g' = g)) gs
        (updateFirstColumnGroup columnGroupId updatedFilters gs)
  | [] => List.Forall₂.nil
  | g :: rest => by
    by_cases h : g.id == columnGroupId
    · have hid : g.id = columnGroupId := eq_of_beq h
      simp only [updateFirstColumnGroup, h, if_true]
      exact List.Forall₂.cons ⟨rfl, rfl, rfl, fun hne => absurd hid hne⟩
        (List.forall₂_same.mpr (fun a _ => ⟨rfl, rfl, rfl, fun _ => rfl⟩))
    · simp only [updateFirstColumnGroup, h, if_false]
      exact List.Forall₂.cons ⟨rfl, rfl, rfl, fun _ => rfl⟩
        (updateFirstColumnGroup_frame columnGroupId updatedFilters rest)

/-- `update_column_group_filters` satisfies the frame shape. -/
theorem updateColumnGroupFilters_frame (columnGroupId : String) (updatedFilters : List Json)
    (st : AccountState) :
    FiltersOnlyUpdate columnGroupId st (updateColumnGroupFilters columnGroupId updatedFilters st) :=
  ⟨rfl, updateFirstColumnGroup_frame columnGroupId updatedFilters st.columnGroups⟩

/-- A successful `applyCoreE` writes back through
`update_column_group_filters` and therefore satisfies the frame shape. -/
theorem applyCoreE_frame (columnGroupId : String)
    (core : List FilterGroup → Except String (List FilterGroup))
    (st st' : AccountState) (h : applyCoreE columnGroupId core st = .ok st') :
    FiltersOnlyUpdate columnGroupId st st' := by
  unfold applyCoreE at h
  cases hcore : core (ingestFilters (storedFiltersOf columnGroupId st)) with
  | error e => rw [hcore] at h; cases h
  | ok gs =>
    rw [hcore] at h
    cases h
    exact updateColumnGroupFilters_frame columnGroupId (writebackFilters gs) st

end OgFilter

/-- C2: each of the six reconciliation operations changes at most the
filters list of the currently targeted column group; the filters of every
other column group, every group's identifying and opaque fields, and all
other fields of the report structure are unchanged. -/
theorem C2_operations_only_touch_target_group_filters :
    (∀ (fn fl fv ft op : String) (afs : List OgFilter.AvailableFilter)
       (cgid : String) (st st' : OgFilter.AccountState),
       OgFilter.addFilterOp fn fl fv ft op afs cgid st = .ok st' →
       OgFilter.FiltersOnlyUpdate cgid st st') ∧
    (∀ (fn fl fv ft op : String) (afs : List OgFilter.AvailableFilter)
       (cgid : String) (st st' : OgFilter.AccountState),
       OgFilter.modifyFilterOp fn fl fv ft op afs cgid st = .ok st' →
       OgFilter.FiltersOnlyUpdate cgid st st') ∧
    (∀ (fn fl : String) (vs : List String) (ft op : String)
       (afs : List OgFilter.AvailableFilter) (cgid : String)
       (st st' : OgFilter.AccountState),
       OgFilter.addOrFilterOp fn fl vs ft op afs cgid st = .ok st' →
       OgFilter.FiltersOnlyUpdate cgid st st') ∧
    (∀ (fn fl msg cgid : String) (st : OgFilter.AccountState),
       OgFilter.FiltersOnlyUpdate cgid st (OgFilter.removeFilterOp fn fl msg cgid st)) ∧
    (∀ (types : List String) (cgid : String) (st : OgFilter.AccountState),
       OgFilter.FiltersOnlyUpdate cgid st (OgFilter.removeMultipleFiltersOp types cgid st)) ∧
    (∀ (cgid : String) (st : OgFilter.AccountState),
       OgFilter.FiltersOnlyUpdate cgid st (OgFilter.removeAllFiltersOp cgid st)) := by
  open OgFilter in
  refine ⟨?_, ?_, ?_, ?_, ?_, ?_⟩
  · intro fn fl fv ft op afs cgid st st' h
    exact applyCoreE_frame cgid _ st st' h
  · intro fn fl fv ft op afs cgid st st' h
    exact applyCoreE_frame cgid _ st st' h
  · intro fn fl vs ft op afs cgid st st' h
    exact applyCoreE_frame cgid _ st st' h
  · intro fn fl msg cgid st
    unfold removeFilterOp
    by_cases hb : isBulkRemovalMessage msg
    · simp only [hb, if_true]
      exact updateColumnGroupFilters_frame cgid [] st
    · simp only [hb, if_false]
      exact updateColumnGroupFilters_frame cgid _ st
  · intro types cgid st
    exact updateColumnGroupFilters_frame cgid _ st
  · intro cgid st
    exact updateColumnGroupFilters_frame cgid _ st

/-- Concrete two-group report used by the state-level witnesses. -/
def OgFilter.reportW : OgFilter.AccountState :=
  ⟨[⟨"cg1", [.obj [("constant", .str "Actuals Data")]],
     [.obj [("operator", .str "and"),
            ("value", .arr [.obj [("columnName", .str "account_type"),
                                  ("value", .str "Accounts Payable"),
                                  ("operator", .str "equal")]])]],
     [("type", .str "table")]⟩,
    ⟨"cg2", [.obj [("constant", .str "Budget Data")]], [], []⟩],
   [("rounding", .obj [("enabled", .bool true)])]⟩

/-- The result of the witness add below, defined as the operation's value. -/
def OgFilter.reportW1 : OgFilter.AccountState :=
  match OgFilter.addFilterOp "fiscal_period" "Fiscal Period" "10" "dimensions" "equal"
      [⟨"fiscal_period", "Fiscal Period", "dimensions", "dim-9", some "fp"⟩] "cg1"
      OgFilter.reportW with
  | .ok st => st
  | .error _ => OgFilter.reportW

/-- C2 witness: a concrete successful add on the two-group report satisfies
the frame shape. -/
theorem C2_operations_only_touch_target_group_filters_witness :
    OgFilter.FiltersOnlyUpdate "cg1" OgFilter.reportW OgFilter.reportW1 :=
  C2_operations_only_touch_target_group_filters.1 "fiscal_period" "Fiscal Period" "10"
    "dimensions" "equal" [⟨"fiscal_period", "Fiscal Period", "dimensions", "dim-9", some "fp"⟩]
    "cg1" OgFilter.reportW OgFilter.reportW1 rfl

namespace OgFilter

/-- The remove loop equals: strip matching conditions from every group, then
drop the groups left empty. -/
theorem removeFilterCore_eq_strip_then_drop (fn fl : String) :
    ∀ gs : List FilterGroup,
      removeFilterCore fn fl gs =
        (gs.map (fun g =>
          (⟨g.operator, g.value.filter (fun c => !matchesFilterName fn fl c),
            g.source_type⟩ : FilterGroup))).filter
          (fun g => !g.value.isEmpty)
  | [] => rfl
  | g :: rest => by
    simp only [removeFilterCore, List.filterMap_cons, List.map_cons, List.filter_cons]
    by_cases h : (g.value.filter (fun c => !matchesFilterName fn fl c)).isEmpty
    · simp only [h, Bool.not_true, if_false]
      exact removeFilterCore_eq_strip_then_drop fn fl rest
    · simp only [Bool.not_eq_true] at h
      simp only [h, Bool.not_false, if_true]
      rw [← removeFilterCore_eq_strip_then_drop fn fl rest]
      rfl

/-- After `update_column_group_filters`, the first group found under the
targeted id carries exactly the written filters. -/
theorem find?_updateFirstColumnGroup (columnGroupId : String) (updatedFilters : List Json) :
    ∀ (gs : List ColumnGroupState) (g' : ColumnGroupState),
      (updateFirstColumnGroup columnGroupId updatedFilters gs).find?
        (fun g => g.id == columnGroupId) = some g' →
      g'.filters = updatedFilters
  | [], g' => by intro h; cases h
  | g :: rest, g' => by
    intro h
    by_cases hid : g.id == columnGroupId
    · simp only [updateFirstColumnGroup, hid, if_true] at h
      rw [List.find?_cons_of_pos] at h
      · cases h; rfl
      · exact hid
    · simp only [updateFirstColumnGroup, hid, if_false] at h
      rw [if_neg Bool.false_ne_true] at h
      rw [List.find?_cons_of_neg _ (by simpa using hid)] at h
      exact find?_updateFirstColumnGroup columnGroupId updatedFilters rest g' h

end OgFilter

/-- C8: a remove whose message does not signal bulk removal drops every
condition matching the requested filter type from every group of the target,
drops any group left with zero conditions entirely, and keeps all other
conditions; a remove whose message contains bulk-removal wording instead
performs the remove-all operation, leaving the targeted column group's
filters empty. -/
theorem C8_remove_semantics_and_bulk_shortcut :
    (∀ (fn fl : String) (gs : List OgFilter.FilterGroup),
      OgFilter.removeFilterCore fn fl gs =
        (gs.map (fun g =>
          (⟨g.operator, g.value.filter (fun c => !OgFilter.matchesFilterName fn fl c),
            g.source_type⟩ : OgFilter.FilterGroup))).filter
          (fun g => !g.value.isEmpty)) ∧
    (∀ (fn fl : String) (gs : List OgFilter.FilterGroup),
      ∀ g' ∈ OgFilter.removeFilterCore fn fl gs,
        g'.value ≠ [] ∧ ∀ c ∈ g'.value, OgFilter.matchesFilterName fn fl c = false) ∧
    (∀ (fn fl msg cgid : String) (st : OgFilter.AccountState),
      OgFilter.isBulkRemovalMessage msg = true →
      OgFilter.removeFilterOp fn fl msg cgid st = OgFilter.removeAllFiltersOp cgid st) ∧
    (∀ (cgid : String) (st : OgFilter.AccountState) (g' : OgFilter.ColumnGroupState),
      (OgFilter.removeAllFiltersOp cgid st).columnGroups.find?
        (fun g => g.id == cgid) = some g' →
      g'.filters = []) := by
  open OgFilter in
  refine ⟨removeFilterCore_eq_strip_then_drop, ?_, ?_, ?_⟩
  · intro fn fl gs g' hg'
    simp only [removeFilterCore, List.mem_filterMap] at hg'
    obtain ⟨g, _, hsome⟩ := hg'
    by_cases h : (g.value.filter (fun c => !matchesFilterName fn fl c)).isEmpty
    · simp only [h, if_true] at hsome
      cases hsome
    · simp only [h, if_false] at hsome
      cases hsome
      constructor
      · intro hempty
        rw [← List.isEmpty_iff] at hempty
        exact absurd hempty h
      · intro c hc
        have := List.of_mem_filter hc
        simpa using this
  · intro fn fl msg cgid st hbulk
    simp [removeFilterOp, hbulk]
  · intro cgid st g' h
    exact find?_updateFirstColumnGroup cgid [] st.columnGroups g' h

/-- C8 witness: the bulk wording "Please remove all filters" reroutes a
concrete remove to remove-all and the target's stored filters come out
empty, while a non-bulk remove keeps the non-matching condition. -/
theorem C8_remove_semantics_and_bulk_shortcut_witness :
    OgFilter.removeFilterOp "account_type" "Account Type" "Please remove all filters" "cg1"
      OgFilter.reportW = OgFilter.removeAllFiltersOp "cg1" OgFilter.reportW ∧
    (⟨"cg1", [.obj [("constant", .str "Actuals Data")]], [],
      [("type", .str "table")]⟩ : OgFilter.ColumnGroupState).filters = ([] : List OgFilter.Json) ∧
    ((⟨.and, [⟨"fiscal_period", "10", .equal, none, none⟩], .lens⟩ : OgFilter.FilterGroup).value ≠ [] ∧
      ∀ c ∈ (⟨.and, [⟨"fiscal_period", "10", .equal, none, none⟩], .lens⟩ : OgFilter.FilterGroup).value,
        OgFilter.matchesFilterName "account_type" "Account Type" c = false) :=
  ⟨C8_remove_semantics_and_bulk_shortcut.2.2.1 "account_type" "Account Type"
      "Please remove all filters" "cg1" OgFilter.reportW (by decide),
   C8_remove_semantics_and_bulk_shortcut.2.2.2 "cg1" OgFilter.reportW
      ⟨"cg1", [.obj [("constant", .str "Actuals Data")]], [], [("type", .str "table")]⟩ rfl,
   C8_remove_semantics_and_bulk_shortcut.2.1 "account_type" "Account Type"
      [⟨.and, [⟨"account_type", "Accounts Payable", .equal, none, none⟩,
               ⟨"fiscal_period", "10", .equal, none, none⟩], .lens⟩]
      ⟨.and, [⟨"fiscal_period", "10", .equal, none, none⟩], .lens⟩ (by decide)⟩

namespace OgFilter

mutual

/-- No dict at any nesting depth of the tree carries the key `k`. -/
def keyFreeJson (k : String) : Json → Bool
  | .obj fields => keyFreeFields k fields
  | .arr elems => keyFreeElems k elems
  | _ => true

def keyFreeFields (k : String) : List (String × Json) → Bool
  | [] => true
  | (k', v) :: rest => !(k' == k) && keyFreeJson k v && keyFreeFields k rest

def keyFreeElems (k : String) : List Json → Bool
  | [] => true
  | v :: rest => keyFreeJson k v && keyFreeElems k rest

end

mutual

/-- Sanitizing removes every block-listed key at every nesting depth. -/
theorem sanitizeJson_keyFree (k : String) (hk : k ∈ unwantedProperties) :
    (j : Json) → keyFreeJson k (sanitizeJson j) = true
  | .null => rfl
  | .bool _ => rfl
  | .num _ => rfl
  | .str _ => rfl
  | .obj fields => by
    simpa [sanitizeJson, keyFreeJson] using sanitizeFields_keyFree k hk fields
  | .arr elems => by
    simpa [sanitizeJson, keyFreeJson] using sanitizeElems_keyFree k hk elems

theorem sanitizeFields_keyFree (k : String) (hk : k ∈ unwantedProperties) :
    (l : List (String × Json)) → keyFreeFields k (sanitizeFields l) = true
  | [] => rfl
  | (k', v) :: rest => by
    by_cases hmem : k' ∈ unwantedProperties
    · simpa [sanitizeFields, hmem] using sanitizeFields_keyFree k hk rest
    · by_cases hn : (sanitizeJson v).isNull
      · simpa [sanitizeFields, hmem, hn] using sanitizeFields_keyFree k hk rest
      · have hne : (k' == k) = false := by
          have : k' ≠ k := fun he => hmem (he ▸ hk)
          simpa using this
        have h1 := sanitizeJson_keyFree k hk v
        have h2 := sanitizeFields_keyFree k hk rest
        simp [sanitizeFields, hmem, hn, keyFreeFields, hne, h1, h2]

theorem sanitizeElems_keyFree (k : String) (hk : k ∈ unwantedProperties) :
    (l : List Json) → keyFreeElems k (sanitizeElems l) = true
  | [] => rfl
  | v :: rest => by
    by_cases hn : (sanitizeJson v).isNull
    · simpa [sanitizeElems, hn] using sanitizeElems_keyFree k hk rest
    · have h1 := sanitizeJson_keyFree k hk v
      have h2 := sanitizeElems_keyFree k hk rest
      simp [sanitizeElems, hn, keyFreeElems, h1, h2]

end

/-- `parseFilterGroup` classifies every group it accepts as `lens`:
`normalize_filter_group` pops `source_type` before the
`FilterType(normalized.get("source_type", "lens"))` call. -/
theorem parseFilterGroup_sourceType_lens :
    ∀ {j : Json} {g : FilterGroup}, parseFilterGroup j = some g → g.source_type = .lens := by
  intro j g h
  unfold parseFilterGroup at h
  cases j with
  | obj fields =>
    dsimp only at h
    split at h
    · cases h
    · split at h
      · split at h
        · cases h; rfl
        · cases h
      · cases h
  | null => cases h
  | bool b => cases h
  | num n => cases h
  | str s => cases h
  | arr elems => cases h

end OgFilter

/-- C10: the filter dicts a mutating operation writes back into the targeted
column group carry no `source_type` key at any nesting depth, and every
FilterGroup re-ingested from stored dicts is classified `lens` regardless of
how it was stored — so a `dimensions` classification never survives from one
operation to the next. -/
theorem C10_source_type_never_survives_roundtrip :
    (∀ (gs : List OgFilter.FilterGroup), ∀ j ∈ OgFilter.writebackFilters gs,
      OgFilter.keyFreeJson "source_type" j = true) ∧
    (∀ (js : List OgFilter.Json), ∀ g ∈ OgFilter.ingestFilters js,
      g.source_type = .lens) := by
  constructor
  · intro gs j hj
    simp only [OgFilter.writebackFilters, List.mem_map] at hj
    obtain ⟨g, _, rfl⟩ := hj
    exact OgFilter.sanitizeJson_keyFree "source_type" (by simp [OgFilter.unwantedProperties])
      (OgFilter.filterGroupToJson g)
  · intro js g hg
    simp only [OgFilter.ingestFilters, List.mem_filterMap] at hg
    obtain ⟨j, _, hparse⟩ := hg
    exact OgFilter.parseFilterGroup_sourceType_lens hparse

/-- C10 witness: a concrete written-back dimensions group is `source_type`
free, and re-ingesting a stored dict that even claims `"source_type":
"dimensions"` yields a `lens` group. -/
theorem C10_source_type_never_survives_roundtrip_witness :
    OgFilter.keyFreeJson "source_type"
      (OgFilter.sanitizeResponseObject (OgFilter.filterGroupToJson
        ⟨.and, [⟨"fiscal_period", "10", .equal, some ⟨"dim-9"⟩, some "fp"⟩], .dimensions⟩)) = true ∧
    (⟨.and, [⟨"fiscal_period", "10", .equal, none, none⟩], .lens⟩ : OgFilter.FilterGroup).source_type =
      .lens :=
  ⟨C10_source_type_never_survives_roundtrip.1
      [⟨.and, [⟨"fiscal_period", "10", .equal, some ⟨"dim-9"⟩, some "fp"⟩], .dimensions⟩]
      (OgFilter.sanitizeResponseObject (OgFilter.filterGroupToJson
        ⟨.and, [⟨"fiscal_period", "10", .equal, some ⟨"dim-9"⟩, some "fp"⟩], .dimensions⟩))
      (List.mem_singleton.mpr rfl),
   C10_source_type_never_survives_roundtrip.2
      [.obj [("operator", .str "and"), ("source_type", .str "dimensions"),
             ("value", .arr [.obj [("columnName", .str "fiscal_period"),
                                   ("value", .str "10"),
                                   ("operator", .str "equal")]])]]
      ⟨.and, [⟨"fiscal_period", "10", .equal, none, none⟩], .lens⟩
      (by decide)⟩

/-- C4 counterexample: an unrecognized operator in an operation input is
fatal — `create_filter_condition` evaluates `FilterOperator(operator)` on
the raw input, so a concrete add with operator "bogus" fails instead of
defaulting to equal and completing. -/
theorem C4_unknown_operator_in_operation_input_is_fatal :
    OgFilter.addFilterOp "account_type" "Account Type" "X" "lens" "bogus" []
      "cg1" OgFilter.reportW = .error "invalid FilterOperator: bogus" := rfl

/-- C4 (amended): an unrecognized operator in an *ingested* condition is
defaulted to equal and ingestion continues (never fatal), but an
unrecognized operator in an *operation input* makes condition construction
raise `ValueError`, failing the operation rather than defaulting. -/
theorem C4_amended_unknown_operator_ingest_vs_input
    (s : String) (hs : OgFilter.FilterOperator.ofValue s = none) :
    (∀ fields, OgFilter.Json.lookupField fields "operator" = some (.str s) →
      OgFilter.parseOperatorField fields = some .equal) ∧
    (∀ (fn fv ft : String) (afs : List OgFilter.AvailableFilter),
      OgFilter.createFilterCondition fn fv s ft afs =
        .error ("invalid FilterOperator: " ++ s)) := by
  constructor
  · intro fields hf
    simp [OgFilter.parseOperatorField, hf, hs]
  · intro fn fv ft afs
    simp [OgFilter.createFilterCondition, hs]

/-- C4 amended witness: with the concrete unknown operator "bogus", an
ingested condition's operator becomes equal while condition construction for
an operation input errors out. -/
theorem C4_amended_unknown_operator_ingest_vs_input_witness :
    OgFilter.parseOperatorField [("operator", .str "bogus")] = some .equal ∧
    OgFilter.createFilterCondition "account_type" "X" "bogus" "lens" [] =
      .error "invalid FilterOperator: bogus" :=
  have h := C4_amended_unknown_operator_ingest_vs_input "bogus" rfl
  ⟨h.1 [("operator", .str "bogus")] rfl, h.2 "account_type" "X" "lens" []⟩

/-- C9 counterexample: a dimensions-sourced construction whose metadata
declares no `joinColumnName` produces a condition carrying `dimension`
without `joinColumnName` — one present without the other, falsifying the
invariant as stated. -/
theorem C9_dimension_without_join_counterexample :
    OgFilter.createFilterCondition "region" "West" "equal" "dimensions"
      [⟨"region", "Region", "dimensions", "dim-1", none⟩] =
      .ok ⟨"region", "West", .equal, some ⟨"dim-1"⟩, none⟩ := rfl

/-- C9 (amended): a lens-sourced or metadata-less construction carries
neither `dimension` nor `joinColumnName`; a dimensions-sourced construction
always carries `dimension` and carries `joinColumnName` exactly when the
filter's metadata declares one; and every emitted condition without a
dimension is serialized with both fields absent. -/
theorem C9_amended_dimension_join_pairing
    (fn fv opv ft : String) (afs : List OgFilter.AvailableFilter)
    (c : OgFilter.FilterCondition)
    (hok : OgFilter.createFilterCondition fn fv opv ft afs = .ok c) :
    (∀ af, afs.find? (fun af => af.name == fn) = some af →
      af.sourceType = "dimensions" →
      c.dimension = some ⟨af.sourceId⟩ ∧ c.joinColumnName = af.joinColumnName) ∧
    (∀ af, afs.find? (fun af => af.name == fn) = some af →
      af.sourceType ≠ "dimensions" →
      c.dimension = none ∧ c.joinColumnName = none) ∧
    (afs.find? (fun af => af.name == fn) = none →
      c.dimension = none ∧ c.joinColumnName = none) ∧
    (∀ c' : OgFilter.FilterCondition, c'.dimension = none →
      OgFilter.conditionToJson c' =
        .obj [("columnName", .str c'.columnName), ("value", .str c'.value),
              ("operator", .str c'.operator.value)]) := by
  open OgFilter in
  refine ⟨?_, ?_, ?_, ?_⟩
  · intro af hfind hdim
    unfold createFilterCondition at hok
    cases hop : FilterOperator.ofValue opv with
    | none => rw [hop] at hok; cases hok
    | some op =>
      rw [hop, hfind] at hok
      dsimp only at hok
      have : (af.sourceType == "dimensions") = true := by simp [hdim]
      rw [this] at hok
      simp only [if_true] at hok
      cases hok
      exact ⟨rfl, rfl⟩
  · intro af hfind hdim
    unfold createFilterCondition at hok
    cases hop : FilterOperator.ofValue opv with
    | none => rw [hop] at hok; cases hok
    | some op =>
      rw [hop, hfind] at hok
      dsimp only at hok
      have : (af.sourceType == "dimensions") = false := by simpa using hdim
      rw [this] at hok
      simp only [Bool.false_eq_true, if_false] at hok
      cases hok
      exact ⟨rfl, rfl⟩
  · intro hfind
    unfold createFilterCondition at hok
    cases hop : FilterOperator.ofValue opv with
    | none => rw [hop] at hok; cases hok
    | some op =>
      rw [hop, hfind] at hok
      cases hok
      exact ⟨rfl, rfl⟩
  · intro c' h
    unfold conditionToJson
    rw [h]

/-- C9 amended witness: with metadata that does declare a join column, a
dimensions-sourced construction carries both fields. -/
theorem C9_amended_dimension_join_pairing_witness :
    ((⟨"region", "West", .equal, some ⟨"dim-1"⟩, some "jc"⟩ : OgFilter.FilterCondition).dimension =
      some ⟨"dim-1"⟩) ∧
    ((⟨"region", "West", .equal, some ⟨"dim-1"⟩, some "jc"⟩ : OgFilter.FilterCondition).joinColumnName =
      some "jc") :=
  have h := (C9_amended_dimension_join_pairing "region" "West" "equal" "dimensions"
    [⟨"region", "Region", "dimensions", "dim-1", some "jc"⟩]
    ⟨"region", "West", .equal, some ⟨"dim-1"⟩, some "jc"⟩ rfl).1
    ⟨"region", "Region", "dimensions", "dim-1", some "jc"⟩ rfl rfl
  ⟨h.1, by rw [h.2]⟩
